import Mathlib

set_option maxRecDepth 100000

/-!
Shallow embedding of the hierarchical timing wheel of `wheel.go`
(package `timing`, repository thinkgos/biny).

Machine integers are modelled as `Nat` (for the `uint32` tick domain,
with explicit `% 2^32` where wraparound matters) and `Int` (for the
`int64` `time.Duration` domain).  The intrusive doubly linked list
collaborator (`github.com/thinkgos/list`, out of scope per the spec,
specified only at its interface: FIFO push-to-back, pop-from-front,
splice, remove-self) is modelled by Lean `List`s, a bucket being a list
in insertion order.
-/

/-- Main-level bit width (`wheel.go`: `tvRBits = 8`). -/
def tvRBits : Nat := 8

/-- Bit width of each cascade level (`wheel.go`: `tvNBits = 6`). -/
def tvNBits : Nat := 6

/-- Number of cascade levels (`wheel.go`: `tvNNum = 4`). -/
def tvNNum : Nat := 4

/-- Number of main-level slots (`wheel.go`: `tvRSize = 1 << tvRBits`). -/
def tvRSize : Nat := 2 ^ tvRBits

/-- Number of slots per cascade level (`wheel.go`: `tvNSize = 1 << tvNBits`). -/
def tvNSize : Nat := 2 ^ tvNBits

/-- Main-level mask (`wheel.go`: `tvRMask = tvRSize - 1`). -/
def tvRMask : Nat := tvRSize - 1

/-- Cascade-level mask (`wheel.go`: `tvNMask = tvNSize - 1`). -/
def tvNMask : Nat := tvNSize - 1

/-- Size of the `uint32` tick space, `2^32`. -/
def U32SZ : Nat := 2 ^ 32

/-- One timer entry (`wheel.go`: `internalEntry`).  `eid` models the
identity of the containing `Element` (a pointer in Go); `job` models the
`Job` value as an index into an external callback environment. -/
structure InternalEntry where
  eid : Nat
  next : Nat
  count : Nat
  number : Nat
  interval : Int
  job : Nat
deriving DecidableEq

/-- The wheel state (`wheel.go`: `Wheel`).  `spokes` is the slot array of
512 buckets; locking fields are omitted (the embedding is sequential). -/
structure Wheel where
  spokes : List (List InternalEntry)
  doNow : List InternalEntry
  curTick : Nat
  granularity : Int
  interval : Int
  running : Bool
deriving DecidableEq

/-- Push an entry to the back of bucket `i`
(the list collaborator's `PushElementBack` on `spokes[i]`). -/
def pushBackSpoke (w : Wheel) (i : Nat) (e : InternalEntry) : Wheel :=
  { w with spokes := w.spokes.set i ((w.spokes.getD i []) ++ [e]) }

/-- The level-selection loop of `wheel.go` `addTimer`
(`for idx >>= tvRBits; idx >= tvNSize && level < (tvNNum-1); level++ { idx >>= tvNBits }`),
as a structural recursion whose fuel is `tvNNum - 1 - level`, so that the
guard `level < tvNNum - 1` is exactly `0 < fuel`. -/
def levelWalkAux : Nat → Nat → Nat → Nat
  | 0, _, level => level
  | fuel + 1, idx, level =>
      if tvNSize ≤ idx then levelWalkAux fuel (idx >>> tvNBits) (level + 1) else level

/-- The cascade level chosen by `addTimer` for an already-shifted
`idx = delta >>> tvRBits`, starting from level 0. -/
def levelWalk (idx : Nat) : Nat :=
  levelWalkAux (tvNNum - 1) idx 0

/-- The spoke index computed by `wheel.go` `addTimer` (lines 260-273):
`idx := next - curTick` with uint32 wraparound; if `idx < tvRSize` the
main-level slot `next & tvRMask`, otherwise
`tvRSize + tvNSize*level + ((next >> (tvRBits + tvNBits*level)) & tvNMask)`
with `level` from the selection loop. -/
def addTimerIdx (curTick next : Nat) : Nat :=
  let idx := (next + U32SZ - curTick) % U32SZ
  if idx < tvRSize then
    next &&& tvRMask
  else
    let level := levelWalk (idx >>> tvRBits)
    tvRSize + tvNSize * level + ((next >>> (tvRBits + tvNBits * level)) &&& tvNMask)

/-- `wheel.go` `addTimer`: compute the spoke index and push the entry to
the back of that bucket. -/
def addTimer (w : Wheel) (e : InternalEntry) : Wheel :=
  pushBackSpoke w (addTimerIdx w.curTick e.next) e

/-- Refinement side, following the claim's words: the first cascade level
`L` in `0..3` whose 64-slot width can distinguish the shifted delta
(shifting right by 8 bits, then 6 per level), level 3 the catch-all. -/
def claimedLevel (delta : Nat) : Nat :=
  if delta >>> 8 < 64 then 0
  else if delta >>> 14 < 64 then 1
  else if delta >>> 20 < 64 then 2
  else 3

/-- Refinement side, following the claim's words: if `delta < 256` the
main-level slot `next & 0xFF`, else array index
`256 + 64*L + ((next >> (8 + 6*L)) & 0x3F)` at level `L = claimedLevel delta`. -/
def claimedIdx (curTick next : Nat) : Nat :=
  let delta := (next + U32SZ - curTick) % U32SZ
  if delta < 256 then next &&& 0xFF
  else 256 + 64 * claimedLevel delta + ((next >>> (8 + 6 * claimedLevel delta)) &&& 0x3F)

lemma levelWalkAux_zero (idx level : Nat) : levelWalkAux 0 idx level = level := rfl

lemma levelWalkAux_succ (fuel idx level : Nat) :
    levelWalkAux (fuel + 1) idx level =
      if 64 ≤ idx then levelWalkAux fuel (idx >>> 6) (level + 1) else level := rfl

lemma levelWalk_eq (idx : Nat) :
    levelWalk idx =
      if idx < 64 then 0 else if idx >>> 6 < 64 then 1 else if idx >>> 12 < 64 then 2 else 3 := by
  have h12 : idx >>> 6 >>> 6 = idx >>> 12 := by rw [← Nat.shiftRight_add]
  show levelWalkAux 3 idx 0 = _
  rw [levelWalkAux_succ 2, levelWalkAux_succ 1, levelWalkAux_succ 0, levelWalkAux_zero, h12]
  split_ifs <;> omega

lemma levelWalk_shift (d : Nat) : levelWalk (d >>> tvRBits) = claimedLevel d := by
  rw [levelWalk_eq, claimedLevel]
  have hR : tvRBits = 8 := rfl
  have e1 : d >>> tvRBits >>> 6 = d >>> 14 := by rw [hR, ← Nat.shiftRight_add]
  have e2 : d >>> tvRBits >>> 12 = d >>> 20 := by rw [hR, ← Nat.shiftRight_add]
  have e3 : d >>> tvRBits = d >>> 8 := by rw [hR]
  rw [e1, e2, e3]

lemma levelWalk_le (idx : Nat) : levelWalk idx ≤ 3 := by
  rw [levelWalk_eq]
  split_ifs <;> omega

lemma addTimerIdx_eq_claimedIdx (curTick next : Nat) :
    addTimerIdx curTick next = claimedIdx curTick next := by
  simp only [addTimerIdx, claimedIdx]
  rw [levelWalk_shift ((next + U32SZ - curTick) % U32SZ)]
  norm_num [tvRSize, tvNSize, tvRMask, tvNMask, tvRBits, tvNBits]

/-- C1: bucket placement.  For every entry deadline `next` and current
tick in the uint32 range, `addTimer` computes `delta = next - curTick`
with unsigned wraparound and pushes the entry to the back of the bucket
the claim describes: main-level slot `next & 0xFF` when `delta < 256`,
otherwise array index `256 + 64*L + ((next >> (8 + 6*L)) & 0x3F)` at the
first level `L` in `0..3` whose 64-slot width distinguishes the shifted
delta, level 3 being the catch-all. -/
theorem addTimer_bucket_placement (w : Wheel) (e : InternalEntry)
    (hc : w.curTick < U32SZ) (hn : e.next < U32SZ) :
    addTimer w e = pushBackSpoke w (claimedIdx w.curTick e.next) e := by
  unfold addTimer
  rw [addTimerIdx_eq_claimedIdx]

/-- Empty slot array: 512 empty buckets, as built by `NewWheel`. -/
def emptySpokes : List (List InternalEntry) :=
  List.replicate (tvRSize + tvNSize * tvNNum) []

/-- A sample wheel used to instantiate universally quantified theorems. -/
def W1 : Wheel :=
  { spokes := emptySpokes, doNow := [], curTick := 1000,
    granularity := 100, interval := 100, running := true }

/-- A sample entry with deadline tick 20000. -/
def E1 : InternalEntry :=
  { eid := 1, next := 20000, count := 0, number := 0, interval := 100, job := 0 }

/-- Witness for C1 at the sample wheel and entry. -/
theorem addTimer_bucket_placement_w :
    W1.curTick < U32SZ ∧ E1.next < U32SZ ∧
      addTimer W1 E1 = pushBackSpoke W1 (claimedIdx W1.curTick E1.next) E1 :=
  ⟨by decide, by decide, addTimer_bucket_placement W1 E1 (by decide) (by decide)⟩

/-- C10: slot-index totality.  For every uint32 deadline tick and every
uint32 current tick -- including wraparound deltas beyond what levels 0-2
can represent -- the spoke index computed by `addTimer` is below
`tvRSize + tvNSize * tvNNum = 512`, so every slot-array access is in
bounds. -/
theorem addTimerIdx_total (curTick next : Nat)
    (hc : curTick < U32SZ) (hn : next < U32SZ) :
    addTimerIdx curTick next < tvRSize + tvNSize * tvNNum := by
  rw [addTimerIdx_eq_claimedIdx]
  show claimedIdx curTick next < 512
  simp only [claimedIdx]
  split
  · have hb : next &&& 0xFF ≤ 0xFF := Nat.and_le_right
    omega
  · have hL : claimedLevel ((next + U32SZ - curTick) % U32SZ) ≤ 3 := by
      unfold claimedLevel
      split_ifs <;> omega
    have hm : next >>> (8 + 6 * claimedLevel ((next + U32SZ - curTick) % U32SZ)) &&& 0x3F ≤ 0x3F :=
      Nat.and_le_right
    omega

/-- Witness for C10 at concrete uint32 ticks. -/
theorem addTimerIdx_total_w :
    (1000 : Nat) < U32SZ ∧ (20000 : Nat) < U32SZ ∧
      addTimerIdx 1000 20000 < tvRSize + tvNSize * tvNNum :=
  ⟨by decide, by decide, addTimerIdx_total 1000 20000 (by decide) (by decide)⟩

/-- `wheel.go` `nextTimeout` (lines 116-118):
`uint32((Duration(nowNano) + timeout + granularity - 1) / granularity)`.
Go division on `int64` truncates toward zero (`Int.tdiv`); the `uint32`
conversion keeps the low 32 bits, i.e. the value modulo `2^32`. -/
def nextTimeout (granularity nano timeout : Int) : Nat :=
  (((nano + timeout + granularity - 1).tdiv granularity) % (2 ^ 32 : Int)).toNat

/-- Refinement side, following the claim's words:
`floor((nowNanos + timeout + granularity - 1) / granularity)`
(Lean's `/` on `Int` is floor division for a positive divisor). -/
def claimedDeadline (granularity nano timeout : Int) : Int :=
  (nano + timeout + granularity - 1) / granularity

/-- C6: deadline computation.  For nonnegative wall-clock time and timeout
and positive granularity (the no-overflow regime of the claim),
`nextTimeout` returns the claimed floor expression reduced modulo `2^32`,
and that expression is exact ceiling division: the smallest tick index `k`
with `k * granularity ≥ nowNanos + timeout`. -/
theorem nextTimeout_ceiling (g nano t : Int) (hg : 0 < g) (hn : 0 ≤ nano) (ht : 0 ≤ t) :
    nextTimeout g nano t = ((claimedDeadline g nano t) % (2 ^ 32 : Int)).toNat ∧
    nano + t ≤ claimedDeadline g nano t * g ∧
    (∀ k : Int, nano + t ≤ k * g → claimedDeadline g nano t ≤ k) := by
  have hnum : 0 ≤ nano + t + g - 1 := by omega
  have htd : (nano + t + g - 1).tdiv g = (nano + t + g - 1) / g :=
    Int.tdiv_eq_ediv hnum (le_of_lt hg)
  have hdm := Int.ediv_add_emod (nano + t + g - 1) g
  have hr0 : 0 ≤ (nano + t + g - 1) % g := Int.emod_nonneg _ (ne_of_gt hg)
  have hrg : (nano + t + g - 1) % g < g := Int.emod_lt_of_pos _ hg
  have hcd : claimedDeadline g nano t = (nano + t + g - 1) / g := rfl
  refine ⟨?_, ?_, ?_⟩
  · unfold nextTimeout claimedDeadline
    rw [htd]
  · have hmc : claimedDeadline g nano t * g = g * ((nano + t + g - 1) / g) := by
      rw [hcd]; ring
    linarith
  · intro k hk
    by_contra hlt
    push_neg at hlt
    have hk1 : k ≤ claimedDeadline g nano t - 1 := by omega
    have hmul : k * g ≤ (claimedDeadline g nano t - 1) * g :=
      mul_le_mul_of_nonneg_right hk1 (le_of_lt hg)
    have hexp : (claimedDeadline g nano t - 1) * g = g * ((nano + t + g - 1) / g) - g := by
      rw [hcd]; ring
    linarith

/-- Witness for C6 at granularity 7, now 10, timeout 5 (ceiling tick 3). -/
theorem nextTimeout_ceiling_w :
    (0 : Int) < 7 ∧ (0 : Int) ≤ 10 ∧ (0 : Int) ≤ 5 ∧ nextTimeout 7 10 5 = 3 ∧
      (nextTimeout 7 10 5 = ((claimedDeadline 7 10 5) % (2 ^ 32 : Int)).toNat ∧
       (10 : Int) + 5 ≤ claimedDeadline 7 10 5 * 7 ∧
       (∀ k : Int, (10 : Int) + 5 ≤ k * 7 → claimedDeadline 7 10 5 ≤ k)) :=
  ⟨by decide, by decide, by decide, by decide,
   nextTimeout_ceiling 7 10 5 (by decide) (by decide) (by decide)⟩

/-- `wheel.go` `Modify` (lines 200-203): the body is only `// TODO:` and
`return sf`.  Modelled as returning the wheel and the entry untouched. -/
def Modify (w : Wheel) (e : InternalEntry) (interval : Int) : Wheel × InternalEntry :=
  (w, e)

/-- C9: `Modify` is a no-op.  For every wheel, entry and new interval, the
whole wheel state (buckets, due-now list, current tick, running flag) and
every field of the entry are unchanged, and the wheel is returned. -/
theorem modify_noop (w : Wheel) (e : InternalEntry) (i : Int) :
    Modify w e i = (w, e) ∧
    (Modify w e i).1.spokes = w.spokes ∧ (Modify w e i).1.doNow = w.doNow ∧
    (Modify w e i).1.curTick = w.curTick ∧ (Modify w e i).1.running = w.running ∧
    (Modify w e i).2.next = e.next ∧ (Modify w e i).2.count = e.count ∧
    (Modify w e i).2.number = e.number ∧ (Modify w e i).2.interval = e.interval ∧
    (Modify w e i).2.job = e.job :=
  ⟨rfl, rfl, rfl, rfl, rfl, rfl, rfl, rfl, rfl, rfl⟩

/-- `wheel.go` `NewJob` (lines 121-134): an unscheduled entry with the
given target count and interval, the wheel default when none is given. -/
def NewJob (w : Wheel) (eid job num : Nat) (interval : Option Int) : InternalEntry :=
  { eid := eid, next := 0, count := 0, number := num,
    interval := interval.getD w.interval, job := job }

/-- The deadline assignment of `AddJob` (line 145):
`entry.next = sf.nextTimeout(time.Now().UnixNano(), entry.interval)`. -/
def scheduledOf (w : Wheel) (e : InternalEntry) (nano : Int) : InternalEntry :=
  { e with next := nextTimeout w.granularity nano e.interval }

/-- `wheel.go` `AddJob` (lines 142-153), over the `NewJob`-built entry:
compute the deadline; push onto the back of the due-now list when it
equals the current tick, otherwise place through `addTimer`. -/
def AddJob (w : Wheel) (e0 : InternalEntry) (nano : Int) : Wheel :=
  if (scheduledOf w e0 nano).next = w.curTick
  then { w with doNow := w.doNow ++ [scheduledOf w e0 nano] }
  else addTimer w (scheduledOf w e0 nano)

/-- C7: immediate-due routing.  If the computed deadline tick equals the
current tick the entry goes to the back of the due-now list and into no
bucket (spokes unchanged); otherwise it goes through the bucket-placement
rule and the due-now list is unchanged; the current tick never moves. -/
theorem addJob_immediate_due (w : Wheel) (e0 : InternalEntry) (nano : Int) :
    (AddJob w e0 nano).doNow =
      (if (scheduledOf w e0 nano).next = w.curTick
       then w.doNow ++ [scheduledOf w e0 nano] else w.doNow) ∧
    (AddJob w e0 nano).spokes =
      (if (scheduledOf w e0 nano).next = w.curTick
       then w.spokes else (addTimer w (scheduledOf w e0 nano)).spokes) ∧
    (AddJob w e0 nano).curTick = w.curTick := by
  by_cases h : (scheduledOf w e0 nano).next = w.curTick
  · simp [AddJob, h]
  · simp [AddJob, h, addTimer, pushBackSpoke]

/-- `wheel.go` `Delete` (lines 192-197): `(*list.Element)(e).RemoveSelf()`
under the lock.  Modelled from the spec: the intrusive list collaborator
is out of scope and specified at its interface only; `RemoveSelf`
detaches the element (identified by `eid`) from whatever list currently
holds it and is safe on a detached element, modelled as removal by
identity from every list of the wheel. -/
def Delete (w : Wheel) (eid : Nat) : Wheel :=
  { w with
    spokes := w.spokes.map (fun s => s.filter (fun x => x.eid != eid)),
    doNow := w.doNow.filter (fun x => x.eid != eid) }

/-- No entry with identity `eid` sits in any bucket or in the due-now
list. -/
def entryAbsent (w : Wheel) (eid : Nat) : Bool :=
  w.spokes.all (fun s => s.all (fun x => x.eid != eid)) &&
    w.doNow.all (fun x => x.eid != eid)

lemma filter_self_idem {α : Type} (p : α → Bool) (l : List α) :
    (l.filter p).filter p = l.filter p := by
  rw [List.filter_filter]
  exact List.filter_congr (fun a _ => Bool.and_self (p a))

lemma map_self_idem {α : Type} (f : α → α) (hf : ∀ a, f (f a) = f a) (l : List α) :
    (l.map f).map f = l.map f := by
  induction l with
  | nil => rfl
  | cons a l ih => simp [hf, ih]

lemma map_id_of {α : Type} (f : α → α) (l : List α) (h : ∀ a ∈ l, f a = a) :
    l.map f = l := by
  induction l with
  | nil => rfl
  | cons a l ih =>
      rw [List.map_cons, h a (by simp), ih (fun b hb => h b (by simp [hb]))]

/-- C8: Delete idempotence.  Deleting twice gives the wheel state of
deleting once; deleting an identity present in no bucket and not in the
due-now list leaves the wheel unchanged; the current tick never moves. -/
theorem delete_idempotent (w : Wheel) (eid : Nat) :
    Delete (Delete w eid) eid = Delete w eid ∧
    (entryAbsent w eid = true → Delete w eid = w) ∧
    (Delete w eid).curTick = w.curTick := by
  refine ⟨?_, ?_, rfl⟩
  · simp only [Delete]
    rw [map_self_idem _ (fun s => filter_self_idem _ s), filter_self_idem]
  · intro h
    unfold entryAbsent at h
    rw [Bool.and_eq_true] at h
    obtain ⟨h1, h2⟩ := h
    rw [List.all_eq_true] at h1 h2
    have hs : w.spokes.map (fun s => s.filter (fun x => x.eid != eid)) = w.spokes := by
      apply map_id_of
      intro s hsm
      exact List.filter_eq_self.mpr (List.all_eq_true.mp (h1 s hsm))
    have hd : w.doNow.filter (fun x => x.eid != eid) = w.doNow :=
      List.filter_eq_self.mpr h2
    simp [Delete, hs, hd]

/-- A sample wheel whose due-now list holds the single entry `E1`
(identity 1). -/
def W8 : Wheel :=
  { spokes := emptySpokes, doNow := [E1], curTick := 5,
    granularity := 100, interval := 100, running := true }

/-- Witness for C8: deleting the never-added identity 7 from `W8` twice
equals deleting it once, and equals `W8` itself. -/
theorem delete_idempotent_w :
    Delete (Delete W8 7) 7 = Delete W8 7 ∧ Delete W8 7 = W8 ∧
      (Delete W8 7).curTick = W8.curTick :=
  ⟨(delete_idempotent W8 7).1, (delete_idempotent W8 7).2.1 (by decide),
   (delete_idempotent W8 7).2.2⟩

/-- The replacement test of the drain loop (`wheel.go` line 229):
`entry.number == 0 || entry.count < entry.number`, evaluated after the
increment of `count`. -/
def keepAlive (number count : Nat) : Bool :=
  number == 0 || decide (count < number)

/-- One iteration of the drain-loop body of `runWork` (lines 224-232),
callback execution aside: pop the front due entry, increment its fired
count (uint32 wraparound), and when the replacement test passes re-place
it via `addTimer` with a fresh deadline computed from the wake-up time
`nano`; otherwise take no further action on it. -/
def processDue (nano : Int) (w : Wheel) : Wheel :=
  match w.doNow with
  | [] => w
  | e :: rest =>
      let e1 := { e with count := (e.count + 1) % U32SZ }
      if keepAlive e1.number e1.count then
        addTimer { w with doNow := rest }
          { e1 with next := nextTimeout w.granularity nano e1.interval }
      else
        { w with doNow := rest }

/-- Derived single-entry firing chain: iterate the drain loop's
increment-and-test decision for one entry that reaches its deadline at
every step, counting its callback firings until the test drops it;
`fuel` bounds the number of due events considered. -/
def firingsFrom (number count : Nat) : Nat → Nat
  | 0 => 0
  | fuel + 1 =>
      let c := (count + 1) % U32SZ
      if keepAlive number c then 1 + firingsFrom number c fuel else 1

lemma keepAlive_true_of_lt {N c : Nat} (h : c < N) : keepAlive N c = true := by
  simp [keepAlive, h]

lemma keepAlive_false_of_ge {N c : Nat} (hN : 1 ≤ N) (h : N ≤ c) :
    keepAlive N c = false := by
  simp only [keepAlive, Bool.or_eq_false_iff, decide_eq_false_iff_not]
  constructor
  · simp [Nat.ne_of_gt hN]
  · omega

lemma firingsFrom_exact (N : Nat) (hN : 1 ≤ N) (hU : N < U32SZ) :
    ∀ fuel c, c < N → N ≤ c + fuel → firingsFrom N c fuel = N - c := by
  intro fuel
  induction fuel with
  | zero =>
      intro c hc hle
      omega
  | succ fuel ih =>
      intro c hc hle
      have hc1 : (c + 1) % U32SZ = c + 1 := Nat.mod_eq_of_lt (by omega)
      show (if keepAlive N ((c + 1) % U32SZ)
            then 1 + firingsFrom N ((c + 1) % U32SZ) fuel else 1) = N - c
      rw [hc1]
      rcases Nat.lt_or_ge (c + 1) N with h1 | h1
      · rw [if_pos (keepAlive_true_of_lt h1), ih (c + 1) h1 (by omega)]
        omega
      · rw [if_neg (by rw [keepAlive_false_of_ge hN h1]; exact Bool.false_ne_true)]
        omega

lemma firingsFrom_persist (fuel : Nat) : ∀ c, firingsFrom 0 c fuel = fuel := by
  induction fuel with
  | zero => intro c; rfl
  | succ fuel ih =>
      intro c
      show (if keepAlive 0 ((c + 1) % U32SZ)
            then 1 + firingsFrom 0 ((c + 1) % U32SZ) fuel else 1) = fuel + 1
      rw [if_pos (by simp [keepAlive]), ih]
      omega

/-- C3: repeat semantics of the drain loop.  Popping the due head
increments its fired count exactly once and re-places it (with a deadline
recomputed from the wake-up time) exactly when the target count is 0 or
the incremented count is still below the target; consequently a target
count `N ≥ 1` fires exactly `N` times before being dropped, and a target
count 0 is re-placed after every firing, firing once per due event
indefinitely. -/
theorem drain_repeat_semantics (nano : Int) (w : Wheel) (e : InternalEntry)
    (rest : List InternalEntry) (h : w.doNow = e :: rest) :
    (processDue nano w).doNow = rest ∧
    processDue nano w =
      (if keepAlive e.number ((e.count + 1) % U32SZ) then
        addTimer { w with doNow := rest }
          { e with count := (e.count + 1) % U32SZ,
                   next := nextTimeout w.granularity nano e.interval }
      else { w with doNow := rest }) ∧
    (∀ N fuel, 1 ≤ N → N < U32SZ → N ≤ fuel → firingsFrom N 0 fuel = N) ∧
    (∀ c fuel, firingsFrom 0 c fuel = fuel) := by
  have hp : processDue nano w =
      (if keepAlive e.number ((e.count + 1) % U32SZ) then
        addTimer { w with doNow := rest }
          { e with count := (e.count + 1) % U32SZ,
                   next := nextTimeout w.granularity nano e.interval }
      else { w with doNow := rest }) := by
    simp only [processDue, h]
  refine ⟨?_, hp, ?_, ?_⟩
  · rw [hp]
    split_ifs
    · rfl
    · rfl
  · intro N fuel h1 h2 h3
    have := firingsFrom_exact N h1 h2 fuel 0 (by omega) (by omega)
    simpa using this
  · intro c fuel
    exact firingsFrom_persist fuel c

/-- Witness for C3 at the sample wheel `W8` (due-now list `[E1]`). -/
theorem drain_repeat_semantics_w :
    W8.doNow = E1 :: [] ∧
    ((processDue 0 W8).doNow = [] ∧
     processDue 0 W8 =
       (if keepAlive E1.number ((E1.count + 1) % U32SZ) then
         addTimer { W8 with doNow := [] }
           { E1 with count := (E1.count + 1) % U32SZ,
                     next := nextTimeout W8.granularity 0 E1.interval }
       else { W8 with doNow := [] }) ∧
     (∀ N fuel, 1 ≤ N → N < U32SZ → N ≤ fuel → firingsFrom N 0 fuel = N) ∧
     (∀ c fuel, firingsFrom 0 c fuel = fuel)) :=
  ⟨rfl, drain_repeat_semantics 0 W8 E1 [] rfl⟩

/-- The full drain loop of `runWork` (lines 224-236) with callback
execution: `jobs` maps a callback identity to its outcome, `Except.error`
modelling a callback that panics or raises.  The source invokes
`entry.job.Run()` with no `recover`, so a failure unwinds the driver:
the loop is left immediately and the remaining due entries are not
processed.  `fuel` bounds the number of iterations. -/
def drainLoop (jobs : Nat → Except String Unit) (nano : Int) :
    Nat → Wheel → Except String Wheel
  | 0, w => Except.ok w
  | fuel + 1, w =>
      match w.doNow with
      | [] => Except.ok w
      | e :: _ =>
          let w1 := processDue nano w
          match jobs e.job with
          | Except.error s => Except.error s
          | Except.ok _ => drainLoop jobs nano fuel w1

/-- Callback environment in which callback 0 panics and all others
return normally. -/
def JPanic : Nat → Except String Unit :=
  fun j => if j = 0 then Except.error "panic" else Except.ok ()

/-- A due entry whose callback (identity 0) panics. -/
def E5a : InternalEntry :=
  { eid := 10, next := 5, count := 0, number := 1, interval := 100, job := 0 }

/-- A second due entry behind it, with a well-behaved callback. -/
def E5b : InternalEntry :=
  { eid := 11, next := 5, count := 0, number := 1, interval := 100, job := 1 }

/-- A wheel whose due-now list holds the panicking entry followed by a
healthy one. -/
def W5 : Wheel :=
  { spokes := emptySpokes, doNow := [E5a, E5b], curTick := 5,
    granularity := 100, interval := 100, running := true }

/-- C5 counterexample: with the panicking entry at the head of the
due-now list, the drain loop terminates with the propagated failure
instead of recovering and continuing to the next due entry. -/
theorem drain_no_recover_cx :
    drainLoop JPanic 0 3 W5 = Except.error "panic" ∧
      (drainLoop JPanic 0 3 W5).isOk = false :=
  ⟨rfl, rfl⟩

/-- C5 amended: the drain loop performs no recovery.  Whenever the head
due entry's callback fails, the failure propagates out of the loop at
once: the driver pass ends with that error and no later due entry is
processed. -/
theorem drain_failure_propagates (jobs : Nat → Except String Unit) (nano : Int)
    (fuel : Nat) (w : Wheel) (e : InternalEntry) (rest : List InternalEntry)
    (s : String) (h : w.doNow = e :: rest) (hj : jobs e.job = Except.error s) :
    drainLoop jobs nano (fuel + 1) w = Except.error s := by
  simp only [drainLoop, h, hj]

/-- Witness for the amended C5 at the concrete wheel `W5`. -/
theorem drain_failure_propagates_w :
    W5.doNow = E5a :: [E5b] ∧ JPanic E5a.job = Except.error "panic" ∧
      drainLoop JPanic 0 3 W5 = Except.error "panic" :=
  ⟨rfl, rfl, drain_failure_propagates JPanic 0 2 W5 E5a [E5b] "panic" rfl rfl⟩

/-- The per-level slot index of `wheel.go` `cascade` (line 249), verbatim:
`(sf.curTick >> (tvRBits + level*tvNNum)) & tvNMask`.  Note the source
multiplies the level by `tvNNum` (the level count, 4), not by `tvNBits`
(the per-level bit width, 6) that `addTimer` placement uses. -/
def cascadeIdx (curTick level : Nat) : Nat :=
  (curTick >>> (tvRBits + level * tvNNum)) &&& tvNMask

/-- The inner drain of one cascade bucket
(`for spoke.Len() > 0 { sf.addTimer((*Element)(spoke.PopFront())) }`):
pop the front entry and re-place it via `addTimer`, re-reading the bucket
each iteration (the source aliases the same list).  `fuel` bounds the
iterations, since re-insertion into the very bucket being drained is
possible and would make the source loop forever. -/
def cascadeSpokeDrain (i : Nat) : Nat → Wheel → Wheel
  | 0, w => w
  | fuel + 1, w =>
      match w.spokes.getD i [] with
      | [] => w
      | e :: rest =>
          cascadeSpokeDrain i fuel (addTimer { w with spokes := w.spokes.set i rest } e)

/-- The level walk of `wheel.go` `cascade` (lines 247-258): starting at
level 0, drain the bucket at `tvRSize + tvNSize*level + cascadeIdx`, and
continue to the next level exactly when that index is 0 and a next level
exists (`level++; index == 0 && level < tvNNum`).  `lrem` is the count of
levels not yet visited, `tvNNum - level`, making the recursion
structural. -/
def cascadeLevels (fuel : Nat) : Nat → Nat → Wheel → Wheel
  | 0, _, w => w
  | lrem + 1, level, w =>
      let index := cascadeIdx w.curTick level
      let w1 := cascadeSpokeDrain (tvRSize + tvNSize * level + index) fuel w
      if index = 0 ∧ level + 1 < tvNNum then cascadeLevels fuel lrem (level + 1) w1
      else w1

/-- `wheel.go` `cascade`: walk the levels from 0. -/
def cascade (w : Wheel) (fuel : Nat) : Wheel :=
  cascadeLevels fuel tvNNum 0 w

/-- One iteration of the catch-up loop of `runWork` (lines 215-221):
increment the tick (uint32 wraparound); when the new main-level index
wraps to 0 run `cascade`; then splice the main-level bucket at the new
index onto the back of the due-now list, emptying that bucket. -/
def tickAdvanceOnce (w : Wheel) (fuel : Nat) : Wheel :=
  let w1 := { w with curTick := (w.curTick + 1) % U32SZ }
  let index := w1.curTick &&& tvRMask
  let w2 := if index = 0 then cascade w1 fuel else w1
  { w2 with
    doNow := w2.doNow ++ w2.spokes.getD index [],
    spokes := w2.spokes.set index [] }

/-- The wheel `W1` after `addTimer` has placed `E1` (deadline tick 20000)
in level-1 bucket 1 (array index 321), advanced to tick 16383, one tick
before the main level wraps. -/
def WC : Wheel :=
  { addTimer W1 E1 with curTick := 16383 }

/-- C2, evaluated at the failing input: at the wrap to tick 16384 the
claim says cascade drains level-1 slot `(16384 >> 14) & 0x3F = 1` (array
index 321), re-placing `E1` into main-level bucket 270; the code instead
computes slot `(16384 >> 12) & 0x3F = 4` (array index 324, empty) and
leaves `E1` untouched in bucket 321. -/
theorem cascade_wrong_level_shift :
    WC.spokes.getD 321 [] = [E1] ∧
    (tickAdvanceOnce WC 8).curTick = 16384 ∧
    cascadeIdx 16384 1 = 4 ∧
    (16384 >>> (8 + 6 * 1)) &&& 0x3F = 1 ∧
    (tickAdvanceOnce WC 8).spokes.getD 321 [] = [E1] ∧
    (tickAdvanceOnce WC 8).spokes.getD 270 [] = [] :=
  ⟨rfl, rfl, rfl, rfl, rfl, rfl⟩

/-- The driver's wake-up re-arm value of `runWork` (line 213, used by
`tick.Reset` on line 238): `waitMs = Duration(nano) % granularity`.
Go `%` on `int64` truncates toward zero (`Int.tmod`). -/
def rearmDuration (nano granularity : Int) : Int :=
  nano.tmod granularity

/-- C4, evaluated at the failing input: at arrival time 110ns with
granularity 100ns the code re-arms the timer with `110 % 100 = 10`ns,
not the `100 - 110 % 100 = 90`ns the claim requires for the next fire to
land on a granularity boundary. -/
theorem rearm_not_boundary :
    rearmDuration 110 100 = 10 ∧
    (100 : Int) - 110 % 100 = 90 ∧
    rearmDuration 110 100 ≠ (100 : Int) - 110 % 100 :=
  ⟨rfl, rfl, by decide⟩
